import Mathlib

/-!
Shallow embedding of the qbittorrent-cleaner repository.

Two implementation variants are modelled:
* `src/qbittorrent-cleaner.py` — the file-based threshold variant
  (`check_rules`, `process_torrents` with the `default` fallback);
* `src/main.py` — the environment-driven expression variant
  (`evaluate_rule`, `process_torrents` without fallback).

Python numbers (ints and floats used by the scripts) are modelled as `Rat`;
a Python value that may be `None` is modelled as an `Option`, and an
expression that may raise is modelled as `Except Unit`.
The ambient call `time.time()` is passed explicitly as a `now` argument.
-/

namespace QB

/-- One torrent as returned by `client.torrents_info()`: the fields the two
scripts read.  `seeding_time` / `completion_on` are `Option` because the
scripts access them with `.get`, which yields `None` when absent. -/
structure Torrent where
  hash : String
  name : String
  category : String
  amount_left : Rat
  seeding_time : Option Rat
  completion_on : Option Rat
  ratio : Rat
  uploaded : Rat
  total_size : Rat
  num_seeds : Rat
deriving DecidableEq

/-- A threshold-form rule dictionary (a YAML mapping such as
`{min_seed_time: 86400, min_ratio: 2.0}`), as an association list. -/
abbrev RuleDict := List (String × Rat)

/-- `d.get(k, dflt)` on a Python dict of numbers. -/
def dictGet (d : RuleDict) (k : String) (dflt : Rat) : Rat :=
  match d.lookup k with
  | some v => v
  | none => dflt

/-- Python truthiness of an optional number: `None` and `0` are falsy. -/
def optTruthy : Option Rat → Bool
  | none => false
  | some x => decide (x ≠ 0)

/-- Lines 43–45 of `qbittorrent-cleaner.py` (and 102–104 of `main.py`):
`seed_time = torrent.get('seeding_time')`, then
`if not seed_time and torrent.get('completion_on'): seed_time = time.time() - torrent.completion_on`.
The result is `none` exactly when the variable is left as Python `None`. -/
def effSeedTime (now : Rat) (t : Torrent) : Option Rat :=
  if !optTruthy t.seeding_time && optTruthy t.completion_on then
    some (now - t.completion_on.getD 0)
  else
    t.seeding_time

/-- `check_rules(torrent, rules)` from `qbittorrent-cleaner.py`.
`Except.error ()` models the `TypeError` Python raises when the comparison
`seed_time < min_time` is applied to a `None` seed time. -/
def check_rules (now : Rat) (t : Torrent) (rules : RuleDict) : Except Unit Bool :=
  match effSeedTime now t with
  | none => .error ()
  | some seed_time =>
    if seed_time < dictGet rules "min_seed_time" 0 then .ok false
    else if dictGet rules "min_ratio" (-1) < 0 ∧ dictGet rules "min_volume_bytes" (-1) < 0 then
      .ok true
    else
      .ok ((decide (0 < dictGet rules "min_ratio" (-1)) &&
             decide (dictGet rules "min_ratio" (-1) ≤ t.ratio)) ||
           (decide (0 < dictGet rules "min_volume_bytes" (-1)) &&
             decide (dictGet rules "min_volume_bytes" (-1) ≤ t.uploaded)))

/-- A Python value flowing through the expression evaluator of `main.py`:
`None`, a number, or a bool. -/
inductive PyVal where
  | vnone
  | vnum (q : Rat)
  | vbool (b : Bool)
deriving DecidableEq

/-- Python truthiness of a `PyVal`. -/
def PyVal.truthy : PyVal → Bool
  | .vnone => false
  | .vnum q => decide (q ≠ 0)
  | .vbool b => b

/-- Numeric coercion used by Python arithmetic and ordered comparison:
bools count as 0/1, `None` raises `TypeError`. -/
def PyVal.toNum : PyVal → Except Unit Rat
  | .vnone => .error ()
  | .vnum q => .ok q
  | .vbool b => .ok (if b then 1 else 0)

/-- Python `==` on the values above: never raises, `None` equals only `None`,
bools compare as their numeric value. -/
def pyEq : PyVal → PyVal → Bool
  | .vnone, .vnone => true
  | .vnone, _ => false
  | _, .vnone => false
  | a, b =>
    match a.toNum, b.toNum with
    | .ok x, .ok y => decide (x = y)
    | _, _ => false

/-- Ordered-comparison operators available in a rule expression. -/
inductive Cmp where
  | lt
  | le
  | gt
  | ge
deriving DecidableEq

/-- The boolean/arithmetic expression language that `main.py` feeds to
`eval` with the five whitelisted names (`time`, `ratio`, `uploaded`,
`size`, `seeds`).  `var` carries an arbitrary string so that undefined
names (a `NameError` at evaluation time) are representable. -/
inductive Expr where
  | lit (q : Rat)
  | boolLit (b : Bool)
  | var (name : String)
  | cmp (op : Cmp) (a b : Expr)
  | eqE (a b : Expr)
  | andE (a b : Expr)
  | orE (a b : Expr)
  | notE (a : Expr)
  | addE (a b : Expr)
  | subE (a b : Expr)
  | mulE (a b : Expr)
deriving DecidableEq

/-- The `stats` dictionary built in `process_torrents` of `main.py`. -/
structure Stats where
  time : PyVal
  ratio : PyVal
  uploaded : PyVal
  size : PyVal
  seeds : PyVal
deriving DecidableEq

/-- Name lookup against the `allowed_names` dictionary of `evaluate_rule`;
any other name is a `NameError`. -/
def lookupName (s : Stats) : String → Except Unit PyVal
  | "time" => .ok s.time
  | "ratio" => .ok s.ratio
  | "uploaded" => .ok s.uploaded
  | "size" => .ok s.size
  | "seeds" => .ok s.seeds
  | _ => .error ()

/-- Evaluate `op` on two numbers. -/
def cmpEval : Cmp → Rat → Rat → Bool
  | .lt, x, y => decide (x < y)
  | .le, x, y => decide (x ≤ y)
  | .gt, x, y => decide (y < x)
  | .ge, x, y => decide (y ≤ x)

/-- Apply a binary numeric operation, raising on non-numeric operands. -/
def numBin (f : Rat → Rat → Rat) (x y : PyVal) : Except Unit PyVal :=
  match x.toNum with
  | .error e => .error e
  | .ok xq =>
    match y.toNum with
    | .error e => .error e
    | .ok yq => .ok (.vnum (f xq yq))

/-- Apply an ordered comparison, raising on non-numeric operands
(e.g. Python `None < 5` is a `TypeError`). -/
def cmpBin (op : Cmp) (x y : PyVal) : Except Unit PyVal :=
  match x.toNum with
  | .error e => .error e
  | .ok xq =>
    match y.toNum with
    | .error e => .error e
    | .ok yq => .ok (.vbool (cmpEval op xq yq))

/-- The semantics of `eval(expression, {"__builtins__": None}, allowed_names)`
restricted to the rule language: short-circuit `and`/`or`, truthiness-based
`not`, ordered comparison and arithmetic with Python's `TypeError` on `None`
operands, and `NameError` on names outside the whitelist. -/
def evalExpr (s : Stats) : Expr → Except Unit PyVal
  | .lit q => .ok (.vnum q)
  | .boolLit b => .ok (.vbool b)
  | .var n => lookupName s n
  | .cmp op a b =>
    match evalExpr s a with
    | .error e => .error e
    | .ok x =>
      match evalExpr s b with
      | .error e => .error e
      | .ok y => cmpBin op x y
  | .eqE a b =>
    match evalExpr s a with
    | .error e => .error e
    | .ok x =>
      match evalExpr s b with
      | .error e => .error e
      | .ok y => .ok (.vbool (pyEq x y))
  | .andE a b =>
    match evalExpr s a with
    | .error e => .error e
    | .ok x => if x.truthy then evalExpr s b else .ok x
  | .orE a b =>
    match evalExpr s a with
    | .error e => .error e
    | .ok x => if x.truthy then .ok x else evalExpr s b
  | .notE a =>
    match evalExpr s a with
    | .error e => .error e
    | .ok x => .ok (.vbool (!x.truthy))
  | .addE a b =>
    match evalExpr s a with
    | .error e => .error e
    | .ok x =>
      match evalExpr s b with
      | .error e => .error e
      | .ok y => numBin (· + ·) x y
  | .subE a b =>
    match evalExpr s a with
    | .error e => .error e
    | .ok x =>
      match evalExpr s b with
      | .error e => .error e
      | .ok y => numBin (· - ·) x y
  | .mulE a b =>
    match evalExpr s a with
    | .error e => .error e
    | .ok x =>
      match evalExpr s b with
      | .error e => .error e
      | .ok y => numBin (· * ·) x y

/-- `evaluate_rule(expression, stats)` from `main.py`: the `eval` result, with
any exception caught and turned into `False`. -/
def evaluate_rule (e : Expr) (s : Stats) : PyVal :=
  match evalExpr s e with
  | .ok v => v
  | .error _ => .vbool false

/-- The `stats` dictionary gathered at lines 102–112 of `main.py`
(`stats['time']` is Python `None` when both time fields are absent). -/
def mkStats (now : Rat) (t : Torrent) : Stats :=
  { time :=
      match effSeedTime now t with
      | some q => .vnum q
      | none => .vnone
    ratio := .vnum t.ratio
    uploaded := .vnum t.uploaded
    size := .vnum t.total_size
    seeds := .vnum t.num_seeds }

/-- `f"{t.name} ({t.category})"` — the display string logged for a match. -/
def display (t : Torrent) : String :=
  t.name ++ " (" ++ t.category ++ ")"

/-- Observable behaviour of one `process_torrents` cycle: the log lines it
emits and the remote calls it makes, in order.  `deleteReq` is the single
batched `client.torrents_delete` request. -/
inductive Event where
  | started
  | fetchFailed
  | noMatches
  | foundBatch (names : List String)
  | dryRunLog
  | deleteReq (hashes : List String) (files : Bool)
  | deletedOk (n : Nat)
  | deleteFailed
deriving DecidableEq

/-- The remote client as the cycle observes it: what `torrents_info()`
returns (or that it raises), and whether `torrents_delete` raises. -/
structure Client where
  torrents : Except Unit (List Torrent)
  deleteFails : Bool

/-- The `settings` mapping of the file-based variant; `none` models an
absent key, read through `settings.get(key, default)`. -/
structure Settings where
  dry_run : Option Bool
  delete_files : Option Bool

/-- The selection loop of `process_torrents` in `main.py` (lines 88–116):
skip torrents with no rule for their category, skip incomplete torrents,
else keep the torrent when `evaluate_rule` returns a truthy value.
`evaluate_rule` never raises, so this loop is total. -/
def selectMain (now : Rat) (rules : List (String × Expr)) : List Torrent → List Torrent
  | [] => []
  | t :: ts =>
    match rules.lookup t.category with
    | none => selectMain now rules ts
    | some e =>
      if 0 < t.amount_left then selectMain now rules ts
      else if (evaluate_rule e (mkStats now t)).truthy then t :: selectMain now rules ts
      else selectMain now rules ts

/-- `process_torrents(client, rules)` from `main.py` as its trace of events.
The deletion call sits inside `try/except`, so its failure only adds a
logged error to the trace. -/
def processMain (now : Rat) (client : Client) (dryRun delFiles : Bool)
    (rules : List (String × Expr)) : List Event :=
  match client.torrents with
  | .error _ => [.started, .fetchFailed]
  | .ok ts =>
    if selectMain now rules ts = [] then [.started, .noMatches]
    else if dryRun then
      [.started, .foundBatch ((selectMain now rules ts).map display), .dryRunLog]
    else if client.deleteFails then
      [.started, .foundBatch ((selectMain now rules ts).map display),
       .deleteReq ((selectMain now rules ts).map Torrent.hash) delFiles, .deleteFailed]
    else
      [.started, .foundBatch ((selectMain now rules ts).map display),
       .deleteReq ((selectMain now rules ts).map Torrent.hash) delFiles,
       .deletedOk ((selectMain now rules ts).map Torrent.hash).length]

/-- The `config['rules']` mapping of the file-based variant: category →
policy value, where a value may be YAML `null` (`none`) or a (possibly
empty) rule dictionary. -/
abbrev RulesMap := List (String × Option RuleDict)

/-- Lines 80–88 of `qbittorrent-cleaner.py`: take the category's own entry
when the key is present (even when its value is `None`), else fall back to
the `default` entry, else `None`. -/
def resolveRule (rm : RulesMap) (cat : String) : Option RuleDict :=
  match rm.lookup cat with
  | some v => v
  | none =>
    match rm.lookup "default" with
    | some v => v
    | none => none

/-- The selection loop of `process_torrents` in `qbittorrent-cleaner.py`
(lines 75–94): skip incomplete torrents, resolve the rule set, skip when it
is falsy (`None` or an empty dict), else consult `check_rules`.  A
`TypeError` raised by `check_rules` aborts the whole loop, which the
`Except` propagates. -/
def selectFile (now : Rat) (rm : RulesMap) : List Torrent → Except Unit (List Torrent)
  | [] => .ok []
  | t :: ts =>
    if 0 < t.amount_left then selectFile now rm ts
    else
      match resolveRule rm t.category with
      | none => selectFile now rm ts
      | some d =>
        if d = [] then selectFile now rm ts
        else
          match check_rules now t d, selectFile now rm ts with
          | .error e, _ => .error e
          | .ok _, .error e => .error e
          | .ok b, .ok rest => .ok (if b then t :: rest else rest)

/-- `process_torrents(client, config)` from `qbittorrent-cleaner.py` as a
trace of events.  Unlike `main.py`, the `torrents_delete` call is *not*
wrapped in `try/except`: its failure, like a `TypeError` inside
`check_rules`, escapes the function, modelled as `Except.error`. -/
def processFile (now : Rat) (client : Client) (st : Settings) (rm : RulesMap) :
    Except Unit (List Event) :=
  match client.torrents with
  | .error _ => .ok [.started, .fetchFailed]
  | .ok ts =>
    match selectFile now rm ts with
    | .error e => .error e
    | .ok dels =>
      if dels = [] then .ok [.started, .noMatches]
      else if st.dry_run.getD true then
        .ok [.started, .foundBatch (dels.map display), .dryRunLog]
      else if client.deleteFails then .error ()
      else
        .ok [.started, .foundBatch (dels.map display),
             .deleteReq (dels.map Torrent.hash) (st.delete_files.getD false),
             .deletedOk (dels.map Torrent.hash).length]

/-- No `torrents_delete` request appears in the trace. -/
def noDeleteReq (evs : List Event) : Prop :=
  ∀ hs b, Event.deleteReq hs b ∉ evs

/-- A sample completed torrent, parameterised by the fields the evaluator
reads. -/
def mkT (cat : String) (st co : Option Rat) (ratio up : Rat) : Torrent :=
  { hash := "h"
    name := "n"
    category := cat
    amount_left := 0
    seeding_time := st
    completion_on := co
    ratio := ratio
    uploaded := up
    total_size := 0
    num_seeds := 0 }

/-- A key that differs from every key of an association list looks up to
`none`. -/
theorem lookup_none_of_ne {β : Type} (l : List (String × β)) (k : String)
    (h : ∀ p ∈ l, p.1 ≠ k) : l.lookup k = none := by
  induction l with
  | nil => rfl
  | cons p l ih =>
    obtain ⟨a, b⟩ := p
    have ha : (k == a) = false :=
      beq_eq_false_iff_ne.mpr (Ne.symm (h (a, b) (List.mem_cons_self _ _)))
    simp only [List.lookup, ha]
    exact ih fun q hq => h q (List.mem_cons_of_mem _ hq)

/-- Every torrent selected by the `main.py` loop has a rule registered for
its category. -/
theorem mem_selectMain (now : Rat) (rules : List (String × Expr))
    (ts : List Torrent) (u : Torrent) (hu : u ∈ selectMain now rules ts) :
    (rules.lookup u.category).isSome = true := by
  induction ts with
  | nil => simp [selectMain] at hu
  | cons t ts ih =>
    cases hl : rules.lookup t.category with
    | none =>
      simp only [selectMain, hl] at hu
      exact ih hu
    | some e =>
      simp only [selectMain, hl] at hu
      split_ifs at hu with hA hE
      · exact ih hu
      · rcases List.mem_cons.mp hu with h | h
        · subst h
          simp [hl]
        · exact ih h
      · exact ih hu

/-- Every torrent selected by the `qbittorrent-cleaner.py` loop resolved to
a truthy (non-`None`, non-empty) rule dictionary. -/
theorem mem_selectFile (now : Rat) (rm : RulesMap) (ts : List Torrent)
    (sel : List Torrent) (u : Torrent) (h : selectFile now rm ts = .ok sel)
    (hu : u ∈ sel) : ∃ d, resolveRule rm u.category = some d ∧ d ≠ [] := by
  induction ts generalizing sel with
  | nil =>
    simp only [selectFile] at h
    injection h with h2
    subst h2
    cases hu
  | cons t ts ih =>
    by_cases hA : 0 < t.amount_left
    · simp only [selectFile, if_pos hA] at h
      exact ih sel h hu
    · cases hres : resolveRule rm t.category with
      | none =>
        simp only [selectFile, if_neg hA, hres] at h
        exact ih sel h hu
      | some d =>
        by_cases hd : d = []
        · simp only [selectFile, if_neg hA, hres, if_pos hd] at h
          exact ih sel h hu
        · cases hc : check_rules now t d with
          | error e =>
            simp only [selectFile, if_neg hA, hres, if_neg hd, hc] at h
            exact Except.noConfusion h
          | ok b =>
            cases hr : selectFile now rm ts with
            | error e =>
              simp only [selectFile, if_neg hA, hres, if_neg hd, hc, hr] at h
              exact Except.noConfusion h
            | ok rest =>
              simp only [selectFile, if_neg hA, hres, if_neg hd, hc, hr] at h
              injection h with h2
              subst h2
              cases b with
              | false =>
                simp only [if_neg Bool.false_ne_true] at hu
                exact ih rest hr hu
              | true =>
                simp only [if_pos rfl] at hu
                rcases List.mem_cons.mp hu with h | h
                · subst h
                  exact ⟨d, hres, hd⟩
                · exact ih rest hr h

/-- Claim C1, counterexample.  With `min_ratio = 0` (a set, non-negative
threshold per the claim), effective seeding time `10` meeting the absent
(hence `0`) time requirement, and `ratio = 5 ≥ 0`, the claim predicts
`true`, but `check_rules` returns `false`: the code tests `min_ratio > 0`,
so a threshold of exactly `0` never triggers. -/
theorem claim_C1_cex :
    effSeedTime 0 (mkT "c" (some 10) none 5 0) = some 10 ∧
    dictGet [("min_ratio", (0 : Rat))] "min_seed_time" 0 ≤ 10 ∧
    dictGet [("min_ratio", (0 : Rat))] "min_ratio" (-1) = 0 ∧
    dictGet [("min_ratio", (0 : Rat))] "min_ratio" (-1) ≤ (mkT "c" (some 10) none 5 0).ratio ∧
    check_rules 0 (mkT "c" (some 10) none 5 0) [("min_ratio", (0 : Rat))] = .ok false :=
  ⟨rfl, by decide, rfl, by decide, rfl⟩

/-- Claim C1 (amended): for every snapshot and threshold policy whose
effective seeding time is defined and meets `min_seed_time`, and where not
both `min_ratio` and `min_volume_bytes` are negative, `check_rules` returns
`true` iff (`min_ratio` is *strictly positive* and `ratio ≥ min_ratio`) or
(`min_volume_bytes` is *strictly positive* and `uploaded ≥
min_volume_bytes`); a threshold set to exactly `0` counts as set for the
both-unset test but can never trigger deletion. -/
theorem claim_C1_or_semantics (now : Rat) (t : Torrent) (rules : RuleDict) (st : Rat)
    (heff : effSeedTime now t = some st)
    (hmt : dictGet rules "min_seed_time" 0 ≤ st)
    (hset : ¬(dictGet rules "min_ratio" (-1) < 0 ∧ dictGet rules "min_volume_bytes" (-1) < 0)) :
    check_rules now t rules = .ok true ↔
      ((0 < dictGet rules "min_ratio" (-1) ∧ dictGet rules "min_ratio" (-1) ≤ t.ratio) ∨
       (0 < dictGet rules "min_volume_bytes" (-1) ∧
         dictGet rules "min_volume_bytes" (-1) ≤ t.uploaded)) := by
  simp only [check_rules, heff]
  rw [if_neg (not_lt.mpr hmt), if_neg hset]
  simp only [Except.ok.injEq, Bool.or_eq_true, Bool.and_eq_true, decide_eq_true_eq]

/-- Witness for C1 (amended) at a concrete input: `min_ratio = 2`,
`ratio = 3`, time requirement absent. -/
theorem claim_C1_or_semantics_witness :
    check_rules 0 (mkT "c" (some 5) none 3 0) [("min_ratio", (2 : Rat))] = .ok true :=
  (claim_C1_or_semantics 0 (mkT "c" (some 5) none 3 0) [("min_ratio", (2 : Rat))] 5
      rfl (by decide) (by decide)).mpr (Or.inl ⟨by decide, by decide⟩)

/-- Claim C2: the claim says `check_rules` never raises, even when both
`seeding_time` and `completion_on` are absent.  The code violates it: the
seed time stays Python `None` and the comparison `None < min_time` raises a
`TypeError`, modelled here as `Except.error`. -/
theorem claim_C2_no_raise_fails :
    check_rules 0 (mkT "c" none none 2 100) [] = .error () := rfl

/-- Claim C3: the first two arms of the effective-seeding-time rule hold
(a present non-falsy `seeding_time` is used as is; otherwise a non-falsy
`completion_on` yields `now - completion_on`), but in the remaining case
the code does *not* treat the seeding time as `0`: it leaves `None`, and
`check_rules` then raises instead of returning `false`. -/
theorem claim_C3_eff_seed_time :
    effSeedTime 100 (mkT "c" (some 7) (some 50) 0 0) = some 7 ∧
    effSeedTime 100 (mkT "c" none (some 30) 0 0) = some 70 ∧
    effSeedTime 100 (mkT "c" none none 0 0) = none ∧
    check_rules 100 (mkT "c" none none 0 0) [("min_seed_time", (50 : Rat))] = .error () :=
  ⟨rfl, by norm_num [effSeedTime, optTruthy, mkT], rfl, rfl⟩

/-- Claim C4: the mandatory time gate.  Whenever the effective seeding time
is defined and strictly below the policy's `min_seed_time`, `check_rules`
returns `false`, whatever the ratio, uploaded volume and the ratio/volume
thresholds are. -/
theorem claim_C4_time_gate (now : Rat) (t : Torrent) (rules : RuleDict) (st : Rat)
    (heff : effSeedTime now t = some st)
    (hlt : st < dictGet rules "min_seed_time" 0) :
    check_rules now t rules = .ok false := by
  simp only [check_rules, heff]
  rw [if_pos hlt]

/-- Witness for C4 at a concrete input: seeding time `10` against a
requirement of `100`, with extreme ratio and uploaded volume. -/
theorem claim_C4_time_gate_witness :
    check_rules 0 (mkT "c" (some 10) none 99 99)
      [("min_seed_time", (100 : Rat)), ("min_ratio", (1 : Rat))] = .ok false :=
  claim_C4_time_gate 0 (mkT "c" (some 10) none 99 99)
    [("min_seed_time", (100 : Rat)), ("min_ratio", (1 : Rat))] 10 rfl (by decide)

/-- Claim C5: expression-form fault containment.  Whenever evaluating the
rule expression fails (undefined name, `None`-typed operand, any other
evaluation error), `evaluate_rule` returns Python `False` instead of
propagating the exception, so a fault can never read as a deletion. -/
theorem claim_C5_fault_containment (e : Expr) (s : Stats) (u : Unit)
    (herr : evalExpr s e = .error u) : evaluate_rule e s = .vbool false := by
  simp only [evaluate_rule, herr]

/-- Witness for C5: the undefined name `oops` is a `NameError`, and
`evaluate_rule` maps it to `False`. -/
theorem claim_C5_fault_containment_witness :
    evaluate_rule (.var "oops") (mkStats 0 (mkT "c" (some 1) none 0 0)) = .vbool false :=
  claim_C5_fault_containment (.var "oops") (mkStats 0 (mkT "c" (some 1) none 0 0)) () rfl

/-- Claim C6: the claim says a failing batched deletion is caught in every
variant and is never fatal.  The code violates it in the file-based
variant: with `dry_run` off, one matching torrent and a failing
`torrents_delete`, `process_torrents` of `qbittorrent-cleaner.py` lets the
exception escape (`Except.error`, which the unguarded main loop turns into
process death), while `main.py` on the same scenario catches it and logs
`deleteFailed`. -/
theorem claim_C6_delete_failure :
    processFile 0 ⟨.ok [mkT "c" (some 10) none 1 0], true⟩ ⟨some false, some false⟩
      [("c", some [("min_seed_time", (0 : Rat))])] = .error () ∧
    processMain 0 ⟨.ok [mkT "c" (some 10) none 1 0], true⟩ false false
      [("c", Expr.boolLit true)] =
      [.started, .foundBatch ["n (c)"], .deleteReq ["h"] false, .deleteFailed] :=
  ⟨rfl, rfl⟩

/-- Claim C9, counterexample.  `check_rules` reads the ambient clock: on a
snapshot whose seeding time is derived from `completion_on`, the same
snapshot/policy pair decides `false` at wall time `1400` and `true` at wall
time `2000`, so the decision is not a pure function of snapshot and policy
alone. -/
theorem claim_C9_cex :
    check_rules 1400 (mkT "c" none (some 1000) 0 0) [("min_seed_time", (500 : Rat))] = .ok false ∧
    check_rules 2000 (mkT "c" none (some 1000) 0 0) [("min_seed_time", (500 : Rat))] = .ok true := by
  constructor
  · have h : effSeedTime 1400 (mkT "c" none (some 1000) 0 0) = some 400 := by
      norm_num [effSeedTime, optTruthy, mkT]
    simp only [check_rules, h]
    rfl
  · have h : effSeedTime 2000 (mkT "c" none (some 1000) 0 0) = some 1000 := by
      norm_num [effSeedTime, optTruthy, mkT]
    simp only [check_rules, h]
    rfl

/-- The effective seeding time ignores the clock when `seeding_time` is
present and non-zero. -/
theorem effSeedTime_of_seeding (now : Rat) (t : Torrent) (s : Rat)
    (hst : t.seeding_time = some s) (hnz : s ≠ 0) :
    effSeedTime now t = some s := by
  simp [effSeedTime, optTruthy, hst, hnz]

/-- Claim C9 (amended): both evaluators are deterministic given snapshot,
policy *and observation time*; the decision can depend on the ambient
clock, but whenever `seeding_time` is present and non-falsy it does not:
two invocations at arbitrary wall times agree, in both variants. -/
theorem claim_C9_determinism (now1 now2 : Rat) (t : Torrent) (rules : RuleDict)
    (e : Expr) (s : Rat) (hst : t.seeding_time = some s) (hnz : s ≠ 0) :
    check_rules now1 t rules = check_rules now2 t rules ∧
    evaluate_rule e (mkStats now1 t) = evaluate_rule e (mkStats now2 t) := by
  have h1 := effSeedTime_of_seeding now1 t s hst hnz
  have h2 := effSeedTime_of_seeding now2 t s hst hnz
  constructor
  · simp only [check_rules, h1, h2]
  · have hstats : mkStats now1 t = mkStats now2 t := by
      simp only [mkStats, h1, h2]
    rw [hstats]

/-- Witness for C9 (amended) at a concrete input: wall times `5` and `999`
give the same decision in both variants when `seeding_time = 7`. -/
theorem claim_C9_determinism_witness :
    check_rules 5 (mkT "c" (some 7) none 1 0) [("min_seed_time", (3 : Rat))] =
      check_rules 999 (mkT "c" (some 7) none 1 0) [("min_seed_time", (3 : Rat))] ∧
    evaluate_rule (.var "time") (mkStats 5 (mkT "c" (some 7) none 1 0)) =
      evaluate_rule (.var "time") (mkStats 999 (mkT "c" (some 7) none 1 0)) :=
  claim_C9_determinism 5 999 (mkT "c" (some 7) none 1 0) [("min_seed_time", (3 : Rat))]
    (.var "time") 7 rfl (by decide)

/-- Claim C7: category isolation.  For a RuleSet whose keys are non-empty
(the data-model invariant), a torrent whose category is the empty string or
has no entry — and, in the file-based variant, with no `default` entry —
is never selected by either executor, whatever its stats. -/
theorem claim_C7_category_isolation (now : Rat) (rulesM : List (String × Expr))
    (rm : RulesMap) (ts : List Torrent) (t : Torrent)
    (hkM : ∀ p ∈ rulesM, p.1 ≠ "") (hkF : ∀ p ∈ rm, p.1 ≠ "")
    (hcat : t.category = "" ∨
      (rulesM.lookup t.category = none ∧ rm.lookup t.category = none))
    (hdef : rm.lookup "default" = none) :
    t ∉ selectMain now rulesM ts ∧
    ∀ sel, selectFile now rm ts = .ok sel → t ∉ sel := by
  have hM : rulesM.lookup t.category = none := by
    rcases hcat with h | ⟨h1, _⟩
    · rw [h]
      exact lookup_none_of_ne rulesM "" hkM
    · exact h1
  have hF : rm.lookup t.category = none := by
    rcases hcat with h | ⟨_, h2⟩
    · rw [h]
      exact lookup_none_of_ne rm "" hkF
    · exact h2
  constructor
  · intro hmem
    have := mem_selectMain now rulesM ts t hmem
    rw [hM] at this
    exact Bool.noConfusion this
  · intro sel hsel hmem
    obtain ⟨d, hd, _⟩ := mem_selectFile now rm ts sel t hsel hmem
    rw [resolveRule, hF, hdef] at hd
    exact Option.noConfusion hd

/-- Witness for C7: a torrent in category `tv` against a RuleSet that only
covers `movies`, with extreme stats, in both variants. -/
theorem claim_C7_category_isolation_witness :
    mkT "tv" (some 99) none 99 99 ∉
      selectMain 0 [("movies", Expr.boolLit true)] [mkT "tv" (some 99) none 99 99] ∧
    ∀ sel, selectFile 0 [("movies", some [("min_seed_time", (0 : Rat))])]
        [mkT "tv" (some 99) none 99 99] = .ok sel →
      mkT "tv" (some 99) none 99 99 ∉ sel :=
  claim_C7_category_isolation 0 [("movies", Expr.boolLit true)]
    [("movies", some [("min_seed_time", (0 : Rat))])]
    [mkT "tv" (some 99) none 99 99] (mkT "tv" (some 99) none 99 99)
    (by decide) (by decide) (Or.inr ⟨rfl, rfl⟩) rfl

/-- Claim C8: dry-run frame property.  With simulation mode on and a
non-empty match set, neither variant's cycle contains a `torrents_delete`
request, while the batch of matched names is still reported. -/
theorem claim_C8_dry_run (now : Rat) (client : Client) (st : Settings)
    (rm : RulesMap) (rulesM : List (String × Expr)) (dfiles : Bool)
    (ts dels : List Torrent)
    (hfetch : client.torrents = .ok ts)
    (hdry : st.dry_run.getD true = true)
    (hsel : selectFile now rm ts = .ok dels) (hne : dels ≠ [])
    (hneM : selectMain now rulesM ts ≠ []) :
    (∃ evs, processFile now client st rm = .ok evs ∧ noDeleteReq evs ∧
      Event.foundBatch (dels.map display) ∈ evs) ∧
    noDeleteReq (processMain now client true dfiles rulesM) ∧
    Event.foundBatch ((selectMain now rulesM ts).map display) ∈
      processMain now client true dfiles rulesM := by
  have hP : processFile now client st rm =
      .ok [.started, .foundBatch (dels.map display), .dryRunLog] := by
    simp only [processFile, hfetch, hsel]
    rw [if_neg hne, if_pos hdry]
  have hMn : processMain now client true dfiles rulesM =
      [.started, .foundBatch ((selectMain now rulesM ts).map display), .dryRunLog] := by
    simp only [processMain, hfetch]
    rw [if_neg hneM, if_pos trivial]
  refine ⟨⟨_, hP, ?_, ?_⟩, ?_, ?_⟩
  · intro hs b hmem
    simp at hmem
  · simp
  · rw [hMn]
    intro hs b hmem
    simp at hmem
  · rw [hMn]
    simp

/-- Witness for C8: one matching torrent, dry-run enabled, in both
variants. -/
theorem claim_C8_dry_run_witness :
    (∃ evs, processFile 0 ⟨.ok [mkT "c" (some 10) none 1 0], false⟩ ⟨some true, some false⟩
        [("c", some [("min_seed_time", (0 : Rat))])] = .ok evs ∧ noDeleteReq evs ∧
      Event.foundBatch ([mkT "c" (some 10) none 1 0].map display) ∈ evs) ∧
    noDeleteReq (processMain 0 ⟨.ok [mkT "c" (some 10) none 1 0], false⟩ true false
      [("c", Expr.boolLit true)]) ∧
    Event.foundBatch
        ((selectMain 0 [("c", Expr.boolLit true)] [mkT "c" (some 10) none 1 0]).map display) ∈
      processMain 0 ⟨.ok [mkT "c" (some 10) none 1 0], false⟩ true false
        [("c", Expr.boolLit true)] :=
  claim_C8_dry_run 0 ⟨.ok [mkT "c" (some 10) none 1 0], false⟩ ⟨some true, some false⟩
    [("c", some [("min_seed_time", (0 : Rat))])] [("c", Expr.boolLit true)] false
    [mkT "c" (some 10) none 1 0] [mkT "c" (some 10) none 1 0]
    rfl rfl rfl (by decide) (by decide)

/-- Claim C10: in the file-based variant, a category whose entry in the
rules map is falsy (YAML `null` or an empty mapping) makes the torrent be
skipped outright: the `default` entry is not consulted (`resolveRule`
returns the falsy entry itself), and the torrent is never selected. -/
theorem claim_C10_falsy_rule (now : Rat) (rm : RulesMap) (ts : List Torrent)
    (t : Torrent) (v : Option RuleDict)
    (hlook : rm.lookup t.category = some v)
    (hfalsy : v = none ∨ v = some []) :
    resolveRule rm t.category = v ∧
    ∀ sel, selectFile now rm ts = .ok sel → t ∉ sel := by
  have hres : resolveRule rm t.category = v := by
    simp [resolveRule, hlook]
  refine ⟨hres, ?_⟩
  intro sel hsel hmem
  obtain ⟨d, hd, hdne⟩ := mem_selectFile now rm ts sel t hsel hmem
  rw [hres] at hd
  rcases hfalsy with h | h
  · subst h
    exact Option.noConfusion hd
  · subst h
    injection hd with h2
    exact hdne h2.symm

/-- Witness for C10: category `c` maps to an empty dict while a permissive
`default` entry exists; the torrent is skipped and `default` is ignored. -/
theorem claim_C10_falsy_rule_witness :
    resolveRule [("c", some ([] : RuleDict)), ("default", some [("min_seed_time", (0 : Rat))])]
      (mkT "c" (some 99) none 99 99).category = some [] ∧
    ∀ sel, selectFile 0
        [("c", some ([] : RuleDict)), ("default", some [("min_seed_time", (0 : Rat))])]
        [mkT "c" (some 99) none 99 99] = .ok sel →
      mkT "c" (some 99) none 99 99 ∉ sel :=
  claim_C10_falsy_rule 0
    [("c", some ([] : RuleDict)), ("default", some [("min_seed_time", (0 : Rat))])]
    [mkT "c" (some 99) none 99 99] (mkT "c" (some 99) none 99 99) (some [])
    rfl (Or.inr rfl)

end QB
